import Mathlib

/-!
Verification development for a retrieval-augmented course-assistant program.

The Python source is shallowly embedded: pure functions become Lean
functions on `List Char` / `String` / `List` values; external services
(UTF-8 decoding, MD5, the text splitter, the PDF page extractor, the
vector index, the language model) are pure functions of their inputs and
are taken as explicit parameters; Python floats that are only ever
compared (similarity scores, detection confidences) are modelled as `ℚ`;
raised exceptions of the index are modelled with `Except`.  All string
processing is modelled at the ASCII level, which covers every character
the program itself introduces.
-/

/-! ## Character-level utilities (ASCII model of Python `str` methods) -/

/-- Characters removed from both ends by Python `str.strip()` (ASCII part). -/
def pyWhitespace (c : Char) : Bool :=
  decide (c.toNat = 32) || decide (c.toNat = 9) || decide (c.toNat = 10) ||
  decide (c.toNat = 13) || decide (c.toNat = 11) || decide (c.toNat = 12)

/-- ASCII model of Python `str.upper` on a single character. -/
def pyUpperChar (c : Char) : Char :=
  if 97 ≤ c.toNat ∧ c.toNat ≤ 122 then Char.ofNat (c.toNat - 32) else c

/-- ASCII model of Python `str.lower` on a single character. -/
def pyLowerChar (c : Char) : Char :=
  if 65 ≤ c.toNat ∧ c.toNat ≤ 90 then Char.ofNat (c.toNat + 32) else c

/-- Membership in the character class `[A-Za-z0-9_-]`, the characters kept
by the substitution `re.sub(r'[^A-Za-z0-9_-]', '', ...)` in
`utils.sanitize_course_id`. -/
def allowedChar (c : Char) : Bool :=
  decide (65 ≤ c.toNat ∧ c.toNat ≤ 90) || decide (97 ≤ c.toNat ∧ c.toNat ≤ 122) ||
  decide (48 ≤ c.toNat ∧ c.toNat ≤ 57) || decide (c.toNat = 95) || decide (c.toNat = 45)

/-- Membership in `[A-Z0-9_-]`, the character class of a fully normalized
course identifier. -/
def normChar (c : Char) : Bool :=
  decide (65 ≤ c.toNat ∧ c.toNat ≤ 90) ||
  decide (48 ≤ c.toNat ∧ c.toNat ≤ 57) || decide (c.toNat = 95) || decide (c.toNat = 45)

/-- Python `str.strip()` on a character list. -/
def pyStrip (l : List Char) : List Char :=
  ((l.dropWhile pyWhitespace).reverse.dropWhile pyWhitespace).reverse

/-- Python `str.upper()` over a whole string (ASCII model). -/
def pyUpperStr (s : String) : String := ⟨s.data.map pyUpperChar⟩

/-- Python `str.lower()` over a whole string (ASCII model). -/
def pyLowerStr (s : String) : String := ⟨s.data.map pyLowerChar⟩

/-- Python `str.replace(old, new)` for one-character `old` and `new`
(single-character occurrences cannot overlap, so the scan is a map). -/
def replaceChar (old new : Char) (s : String) : String :=
  ⟨s.data.map fun c => if c = old then new else c⟩

/-! ## config.py constants used by the embedded code -/

def MISC_COURSE_ID : String := "MISC"

def AUTO_COURSE_ID : String := "AUTO"

def TOP_K_RESULTS : Nat := 5

/-- config.SIMILARITY_THRESHOLD = 0.3 -/
def SIMILARITY_THRESHOLD : ℚ := 3/10

/-- config.MAX_CHAT_HISTORY = 10 -/
def MAX_CHAT_HISTORY : Nat := 10

/-! ## utils.sanitize_course_id and utils.validate_course_id -/

/-- The character pipeline of `utils.sanitize_course_id`: strip surrounding
whitespace, replace spaces with underscores, drop characters outside
`[A-Za-z0-9_-]`, uppercase. -/
def sanitizeCore (s : String) : List Char :=
  (((pyStrip s.data).map fun c => if c = ' ' then '_' else c).filter allowedChar).map
    pyUpperChar

/-- Embedding of `utils.sanitize_course_id`: the character pipeline above
with a fall back to the MISC sentinel when nothing is left. -/
def sanitize_course_id (s : String) : String :=
  if sanitizeCore s = [] then MISC_COURSE_ID else ⟨sanitizeCore s⟩

/-- Embedding of `utils.validate_course_id`. -/
def validate_course_id (course_id : String) : Bool × Option String :=
  if course_id.data = [] ∨ pyStrip course_id.data = [] then
    (false, some "Course ID cannot be empty")
  else if (sanitize_course_id course_id).data.length < 2 then
    (false, some "Course ID must be at least 2 characters")
  else if 50 < (sanitize_course_id course_id).data.length then
    (false, some "Course ID cannot exceed 50 characters")
  else (true, none)

/-! ### Character lemmas -/

theorem char_eq_of_toNat_eq {a b : Char} (h : a.toNat = b.toNat) : a = b :=
  Char.ext (UInt32.ext h)

theorem toNat_charOfNat {n : Nat} (h : n < 55296) : (Char.ofNat n).toNat = n := by
  unfold Char.ofNat
  rw [dif_pos (Or.inl h)]
  simp [Char.ofNatAux, Char.toNat, UInt32.ofNat', UInt32.toNat,
    Nat.mod_eq_of_lt (show n < 2^32 by omega)]

theorem toNat_pyUpperChar (c : Char) :
    (pyUpperChar c).toNat =
      if 97 ≤ c.toNat ∧ c.toNat ≤ 122 then c.toNat - 32 else c.toNat := by
  unfold pyUpperChar
  split
  · next h => exact toNat_charOfNat (by omega)
  · rfl

theorem normChar_iff {c : Char} :
    normChar c = true ↔
      (65 ≤ c.toNat ∧ c.toNat ≤ 90) ∨ (48 ≤ c.toNat ∧ c.toNat ≤ 57) ∨
      c.toNat = 95 ∨ c.toNat = 45 := by
  simp [normChar, Bool.or_eq_true, decide_eq_true_eq, or_assoc]

theorem allowedChar_iff {c : Char} :
    allowedChar c = true ↔
      (65 ≤ c.toNat ∧ c.toNat ≤ 90) ∨ (97 ≤ c.toNat ∧ c.toNat ≤ 122) ∨
      (48 ≤ c.toNat ∧ c.toNat ≤ 57) ∨ c.toNat = 95 ∨ c.toNat = 45 := by
  simp [allowedChar, Bool.or_eq_true, decide_eq_true_eq, or_assoc]

theorem normChar_pyUpperChar_of_allowed {c : Char} (h : allowedChar c = true) :
    normChar (pyUpperChar c) = true := by
  rw [allowedChar_iff] at h
  rw [normChar_iff, toNat_pyUpperChar]
  split
  · omega
  · next hn => omega

theorem normChar_not_ws {c : Char} (h : normChar c = true) : pyWhitespace c = false := by
  rw [normChar_iff] at h
  simp [pyWhitespace, Bool.or_eq_false_iff, decide_eq_false_iff_not]
  omega

theorem normChar_ne_space {c : Char} (h : normChar c = true) : c ≠ ' ' := by
  intro hc
  subst hc
  exact absurd h (by decide)

theorem normChar_allowed {c : Char} (h : normChar c = true) : allowedChar c = true := by
  rw [normChar_iff] at h
  rw [allowedChar_iff]
  omega

theorem pyUpperChar_of_norm {c : Char} (h : normChar c = true) : pyUpperChar c = c := by
  rw [normChar_iff] at h
  unfold pyUpperChar
  rw [if_neg]
  omega

/-! ### sanitize_course_id lemmas -/

theorem dropWhile_eq_self_of {p : Char → Bool} {l : List Char}
    (h : ∀ c ∈ l, p c = false) : l.dropWhile p = l := by
  cases l with
  | nil => rfl
  | cons a t =>
    rw [List.dropWhile_cons, if_neg]
    simp [h a (by simp)]

theorem pyStrip_eq_self_of {l : List Char}
    (h : ∀ c ∈ l, pyWhitespace c = false) : pyStrip l = l := by
  unfold pyStrip
  rw [dropWhile_eq_self_of h]
  rw [dropWhile_eq_self_of (by intro c hc; exact h c (List.mem_reverse.mp hc))]
  exact List.reverse_reverse l

theorem map_eq_self_of {α : Type} {f : α → α} {l : List α}
    (h : ∀ c ∈ l, f c = c) : l.map f = l := by
  induction l with
  | nil => rfl
  | cons a t ih =>
    simp only [List.map_cons, h a (by simp), List.cons.injEq, true_and]
    exact ih fun c hc => h c (by simp [hc])

theorem sanitize_chars (s : String) :
    (∀ c ∈ (sanitize_course_id s).data, normChar c = true) ∧
      (sanitize_course_id s).data ≠ [] := by
  unfold sanitize_course_id
  split
  · exact ⟨by decide, by decide⟩
  · next h =>
    constructor
    · intro c hc
      simp only [String.data] at hc
      rcases List.mem_map.mp hc with ⟨c', hc', rfl⟩
      exact normChar_pyUpperChar_of_allowed (List.of_mem_filter hc')
    · simpa using h

theorem sanitize_fixed {s : String}
    (h1 : ∀ c ∈ s.data, normChar c = true) (h2 : s.data ≠ []) :
    sanitize_course_id s = s := by
  have hcore : sanitizeCore s = s.data := by
    unfold sanitizeCore
    have hstrip : pyStrip s.data = s.data :=
      pyStrip_eq_self_of fun c hc => normChar_not_ws (h1 c hc)
    rw [hstrip]
    have hmap1 : (s.data.map fun c => if c = ' ' then '_' else c) = s.data :=
      map_eq_self_of fun c hc => if_neg (normChar_ne_space (h1 c hc))
    rw [hmap1]
    have hfil : s.data.filter allowedChar = s.data :=
      List.filter_eq_self.mpr fun c hc => normChar_allowed (h1 c hc)
    rw [hfil]
    exact map_eq_self_of fun c hc => pyUpperChar_of_norm (h1 c hc)
  unfold sanitize_course_id
  rw [hcore, if_neg h2]

/-- C6: for every input string, `sanitize_course_id` is idempotent, and its
output is a non-empty word over the alphabet `[A-Z0-9_-]` (so it matches
the pattern `[A-Z0-9_-]+`; in particular it is never empty). -/
theorem sanitize_course_id_idempotent_and_charset (x : String) :
    sanitize_course_id (sanitize_course_id x) = sanitize_course_id x ∧
      (sanitize_course_id x).data ≠ [] ∧
      ∀ c ∈ (sanitize_course_id x).data, normChar c = true := by
  obtain ⟨h1, h2⟩ := sanitize_chars x
  exact ⟨sanitize_fixed h1 h2, h2, h1⟩

/-- Witness for C6 at the concrete raw course id "cs 101!". -/
theorem sanitize_course_id_idempotent_witness :
    sanitize_course_id (sanitize_course_id "cs 101!") = sanitize_course_id "cs 101!" ∧
      (sanitize_course_id "cs 101!").data ≠ [] ∧
      ∀ c ∈ (sanitize_course_id "cs 101!").data, normChar c = true :=
  sanitize_course_id_idempotent_and_charset "cs 101!"

/-! ## Decimal rendering of natural numbers (Python `str(int)` / f-strings) -/

/-- Least-significant-first decimal digits, fuel-driven so that the kernel
can evaluate it. -/
def digitsRev : Nat → Nat → List Nat
  | 0, _ => []
  | fuel + 1, n => if n = 0 then [] else n % 10 :: digitsRev fuel (n / 10)

theorem digitsRev_eq (fuel n : Nat) (h : n ≤ fuel) :
    digitsRev fuel n = Nat.digits 10 n := by
  induction fuel generalizing n with
  | zero =>
    interval_cases n
    rw [Nat.digits_zero]
    rfl
  | succ f ih =>
    by_cases hn : n = 0
    · subst hn
      rw [digitsRev, if_pos rfl, Nat.digits_zero]
    · rw [digitsRev, if_neg hn, Nat.digits_def' (by norm_num) (Nat.pos_of_ne_zero hn)]
      rw [ih (n / 10) (by omega)]

/-- The character list of Python `str(n)` for a natural number `n`. -/
def natChars (n : Nat) : List Char :=
  if n = 0 then ['0'] else ((digitsRev n n).reverse.map Nat.digitChar)

/-- Python `str(n)` for a natural number. -/
def natStr (n : Nat) : String := ⟨natChars n⟩

theorem digitChar_inj_aux :
    ∀ a < 10, ∀ b < 10, Nat.digitChar a = Nat.digitChar b → a = b := by decide

theorem digitChar_inj_lt {a b : Nat} (ha : a < 10) (hb : b < 10)
    (h : Nat.digitChar a = Nat.digitChar b) : a = b :=
  digitChar_inj_aux a ha b hb h

theorem digitChar_ne_underscore_aux : ∀ d < 10, Nat.digitChar d ≠ '_' := by decide

theorem digitChar_ne_underscore {d : Nat} (hd : d < 10) : Nat.digitChar d ≠ '_' :=
  digitChar_ne_underscore_aux d hd

theorem natChars_mem_digit {n : Nat} {c : Char} (hc : c ∈ natChars n) :
    ∃ d, d < 10 ∧ c = Nat.digitChar d := by
  unfold natChars at hc
  split at hc
  · refine ⟨0, by norm_num, ?_⟩
    simpa using hc
  · next hn =>
    rw [digitsRev_eq n n le_rfl] at hc
    rcases List.mem_map.mp hc with ⟨d, hd, rfl⟩
    exact ⟨d, Nat.digits_lt_base (by norm_num) (List.mem_reverse.mp hd), rfl⟩

theorem underscore_not_mem_natChars (n : Nat) : '_' ∉ natChars n := by
  intro h
  rcases natChars_mem_digit h with ⟨d, hd, hcd⟩
  exact digitChar_ne_underscore hd hcd.symm

theorem map_digitChar_inj {l1 l2 : List Nat} (h1 : ∀ d ∈ l1, d < 10)
    (h2 : ∀ d ∈ l2, d < 10) (h : l1.map Nat.digitChar = l2.map Nat.digitChar) :
    l1 = l2 := by
  induction l1 generalizing l2 with
  | nil =>
    cases l2 with
    | nil => rfl
    | cons b t2 => simp at h
  | cons a t1 ih =>
    cases l2 with
    | nil => simp at h
    | cons b t2 =>
      simp only [List.map_cons, List.cons.injEq] at h
      have hab : a = b :=
        digitChar_inj_lt (h1 a (by simp)) (h2 b (by simp)) h.1
      rw [hab, ih (fun d hd => h1 d (by simp [hd])) (fun d hd => h2 d (by simp [hd])) h.2]

theorem natChars_inj {a b : Nat} (h : natChars a = natChars b) : a = b := by
  have digmem : ∀ n, n ≠ 0 → ∀ d ∈ (digitsRev n n).reverse, d < 10 := by
    intro n hn d hd
    rw [digitsRev_eq n n le_rfl] at hd
    exact Nat.digits_lt_base (by norm_num) (List.mem_reverse.mp hd)
  have key : ∀ n, n ≠ 0 → natChars n = ['0'] → False := by
    intro n hn hch
    unfold natChars at hch
    rw [if_neg hn] at hch
    have : (digitsRev n n).reverse = [0] := by
      have := @map_digitChar_inj ((digitsRev n n).reverse) [0] (digmem n hn)
        (by norm_num) (by simpa using hch)
      simpa using this
    have hdig : Nat.digits 10 n = [0] := by
      rw [digitsRev_eq n n le_rfl] at this
      have hrev := congrArg List.reverse this
      simpa using hrev
    have := Nat.ofDigits_digits 10 n
    rw [hdig] at this
    simp [Nat.ofDigits] at this
    omega
  by_cases ha : a = 0
  · by_cases hb : b = 0
    · omega
    · subst ha
      exact absurd h.symm (fun hc => key b hb hc)
  · by_cases hb : b = 0
    · subst hb
      exact absurd h (fun hc => key a ha hc)
    · unfold natChars at h
      rw [if_neg ha, if_neg hb] at h
      have hrev := map_digitChar_inj (digmem a ha) (digmem b hb) h
      have hda : Nat.digits 10 a = Nat.digits 10 b := by
        have := congrArg List.reverse hrev
        rw [digitsRev_eq a a le_rfl, digitsRev_eq b b le_rfl] at this
        simpa using this
      calc a = Nat.ofDigits 10 (Nat.digits 10 a) := (Nat.ofDigits_digits 10 a).symm
    _ = Nat.ofDigits 10 (Nat.digits 10 b) := by rw [hda]
    _ = b := Nat.ofDigits_digits 10 b

/-- Splitting a list at the first occurrence of a separator is unambiguous. -/
theorem split_at_first_sep {α : Type} {sep : α} :
    ∀ {x1 x2 y1 y2 : List α}, x1 ++ sep :: y1 = x2 ++ sep :: y2 →
      sep ∉ x1 → sep ∉ x2 → x1 = x2 ∧ y1 = y2 := by
  intro x1
  induction x1 with
  | nil =>
    intro x2 y1 y2 h hn1 hn2
    cases x2 with
    | nil => simpa using h
    | cons b t2 =>
      simp only [List.nil_append, List.cons_append, List.cons.injEq] at h
      exact absurd (h.1 ▸ List.mem_cons_self b t2) (h.1 ▸ hn2)
  | cons a t1 ih =>
    intro x2 y1 y2 h hn1 hn2
    cases x2 with
    | nil =>
      simp only [List.cons_append, List.nil_append, List.cons.injEq] at h
      exact absurd (List.mem_cons_self a t1) (h.1 ▸ hn1)
    | cons b t2 =>
      simp only [List.cons_append, List.cons.injEq] at h
      obtain ⟨rfl, h2⟩ := h
      have := ih h2 (fun hm => hn1 (List.mem_cons_of_mem a hm))
        (fun hm => hn2 (List.mem_cons_of_mem a hm))
      exact ⟨by rw [this.1], this.2⟩

/-! ## Data model: chunk metadata, documents, citations -/

/-- The metadata dict attached to every chunk by
`DocumentProcessor.process_pdf` / `process_txt`. -/
structure ChunkMeta where
  course_id : String
  doc_type : String
  source_file : String
  page_number : Nat
  chunk_id : String
  chunk_index : Nat
  upload_timestamp : String
  file_type : String
  total_pages : Nat
deriving DecidableEq

/-- A langchain `Document`: page content plus metadata. -/
structure Document where
  page_content : String
  metadata : ChunkMeta
deriving DecidableEq

/-- A citation dict as built by `CourseRetriever.get_source_citations`. -/
structure Citation where
  source_file : String
  page_number : Nat
  doc_type : String
  course_id : String
  snippet : String
deriving DecidableEq

/-- The dedup key `f"{source}_{page}"` of `get_source_citations`. -/
def citeKey (source : String) (page : Nat) : String := source ++ "_" ++ natStr page

theorem string_eq_of_data_eq {s t : String} (h : s.data = t.data) : s = t :=
  congrArg String.mk h

theorem citeKey_inj {s1 s2 : String} {p1 p2 : Nat}
    (h : citeKey s1 p1 = citeKey s2 p2) : s1 = s2 ∧ p1 = p2 := by
  have hdata := congrArg String.data h
  have hund : ("_" : String).data = ['_'] := rfl
  have hexp : ∀ (s : String) (p : Nat), (citeKey s p).data = s.data ++ '_' :: natChars p := by
    intro s p
    unfold citeKey
    rw [String.data_append, String.data_append, List.append_assoc, hund]
    rfl
  rw [hexp, hexp] at hdata
  have hrev := congrArg List.reverse hdata
  simp only [List.reverse_append, List.reverse_cons, List.append_assoc,
    List.singleton_append] at hrev
  have hsplit := split_at_first_sep hrev
    (fun hm => underscore_not_mem_natChars p1 (List.mem_reverse.mp hm))
    (fun hm => underscore_not_mem_natChars p2 (List.mem_reverse.mp hm))
  constructor
  · exact string_eq_of_data_eq (List.reverse_injective hsplit.2)
  · exact natChars_inj (List.reverse_injective hsplit.1)

/-- The snippet built for a citation: the content itself, or its first 200
characters followed by an ellipsis. -/
def snippetOf (content : String) : String :=
  if 200 < content.data.length then (⟨content.data.take 200⟩ : String) ++ "..."
  else content

/-- The citation dict built for one document. -/
def mkCitation (doc : Document) : Citation :=
  ⟨doc.metadata.source_file, doc.metadata.page_number, doc.metadata.doc_type,
   doc.metadata.course_id, snippetOf doc.page_content⟩

/-- Embedding of `CourseRetriever.get_source_citations`: walk the documents
keeping a set of already-seen keys, appending one citation per new key. -/
def get_source_citations_aux (seen : List String) : List Document → List Citation
  | [] => []
  | doc :: rest =>
    if citeKey doc.metadata.source_file doc.metadata.page_number ∈ seen then
      get_source_citations_aux seen rest
    else
      mkCitation doc ::
        get_source_citations_aux
          (citeKey doc.metadata.source_file doc.metadata.page_number :: seen) rest

def get_source_citations (documents : List Document) : List Citation :=
  get_source_citations_aux [] documents

/-- The (source file, page number) pair of a document. -/
def keyOfDoc (d : Document) : String × Nat := (d.metadata.source_file, d.metadata.page_number)

/-- Specification-side deduplication: keep the first occurrence of every
(source file, page number) pair, preserving order. -/
def firstSeenPairs (seen : List (String × Nat)) : List (String × Nat) → List (String × Nat)
  | [] => []
  | p :: rest =>
    if p ∈ seen then firstSeenPairs seen rest else p :: firstSeenPairs (p :: seen) rest

theorem get_source_citations_aux_pairs (docs : List Document) :
    ∀ (seenK : List String) (seenP : List (String × Nat)),
      (∀ s p, citeKey s p ∈ seenK ↔ (s, p) ∈ seenP) →
      (get_source_citations_aux seenK docs).map (fun c => (c.source_file, c.page_number))
        = firstSeenPairs seenP (docs.map keyOfDoc) := by
  induction docs with
  | nil =>
    intro seenK seenP _
    rfl
  | cons d rest ih =>
    intro seenK seenP hcorr
    simp only [get_source_citations_aux, List.map_cons, firstSeenPairs, keyOfDoc]
    by_cases hin : citeKey d.metadata.source_file d.metadata.page_number ∈ seenK
    · rw [if_pos hin, if_pos ((hcorr _ _).mp hin)]
      exact ih seenK seenP hcorr
    · rw [if_neg hin, if_neg (fun hm => hin ((hcorr _ _).mpr hm))]
      simp only [List.map_cons]
      refine congrArg ((d.metadata.source_file, d.metadata.page_number) :: ·) ?_
      refine ih _ _ ?_
      intro s p
      simp only [List.mem_cons]
      constructor
      · rintro (heq | hmem)
        · left
          obtain ⟨hs, hp⟩ := citeKey_inj heq
          simp [keyOfDoc, hs, hp]
        · right
          exact (hcorr s p).mp hmem
      · rintro (heq | hmem)
        · left
          simp only [keyOfDoc, Prod.mk.injEq] at heq
          rw [heq.1, heq.2]
        · right
          exact (hcorr s p).mpr hmem

theorem get_source_citations_aux_mem (docs : List Document) :
    ∀ (seen : List String) (c : Citation), c ∈ get_source_citations_aux seen docs →
      ∃ d ∈ docs, c = mkCitation d := by
  induction docs with
  | nil =>
    intro seen c hc
    simp [get_source_citations_aux] at hc
  | cons d rest ih =>
    intro seen c hc
    simp only [get_source_citations_aux] at hc
    split at hc
    · rcases ih _ _ hc with ⟨d', hd', hcd⟩
      exact ⟨d', List.mem_cons_of_mem d hd', hcd⟩
    · rcases List.mem_cons.mp hc with heq | hmem
      · exact ⟨d, List.mem_cons_self d rest, heq⟩
      · rcases ih _ _ hmem with ⟨d', hd', hcd⟩
        exact ⟨d', List.mem_cons_of_mem d hd', hcd⟩

/-- C3: citation extraction produces exactly one citation per distinct
(source file, page number) pair, in first-seen order, and each citation's
snippet is the chunk content unchanged when it has at most 200 characters,
and otherwise the first 200 characters followed by an ellipsis (hence at
most 203 characters and ellipsis-terminated). -/
theorem get_source_citations_spec (documents : List Document) :
    ((get_source_citations documents).map fun c => (c.source_file, c.page_number))
        = firstSeenPairs [] (documents.map keyOfDoc) ∧
      ∀ c ∈ get_source_citations documents, ∃ d ∈ documents,
        c.source_file = d.metadata.source_file ∧
        c.page_number = d.metadata.page_number ∧
        (d.page_content.data.length ≤ 200 → c.snippet = d.page_content) ∧
        (200 < d.page_content.data.length →
          c.snippet = (⟨d.page_content.data.take 200⟩ : String) ++ "..." ∧
            c.snippet.data.length = 203 ∧
            ∃ stem, c.snippet = stem ++ "...") := by
  constructor
  · exact get_source_citations_aux_pairs documents [] [] (by simp)
  · intro c hc
    rcases get_source_citations_aux_mem documents [] c hc with ⟨d, hd, rfl⟩
    refine ⟨d, hd, rfl, rfl, ?_, ?_⟩
    · intro hlen
      simp only [mkCitation, snippetOf]
      rw [if_neg (by omega)]
    · intro hlen
      simp only [mkCitation, snippetOf]
      rw [if_pos hlen]
      refine ⟨rfl, ?_, ⟨⟨d.page_content.data.take 200⟩, rfl⟩⟩
      rw [String.data_append]
      have h1 : (d.page_content.data.take 200).length = 200 :=
        List.length_take_of_le (by omega)
      simp [List.length_append, h1]

/-- Two documents sharing a (source file, page) key plus one long document,
used to exercise C3 concretely. -/
def exampleDocs : List Document :=
  [⟨"alpha", ⟨"CS101", "lecture", "notes.pdf", 2, "h_2_0", 0, "t0", "pdf", 3⟩⟩,
   ⟨"beta", ⟨"CS101", "lecture", "notes.pdf", 2, "h_2_1", 1, "t0", "pdf", 3⟩⟩,
   ⟨"gamma", ⟨"CS101", "lecture", "slides.pdf", 1, "g_1_0", 0, "t0", "pdf", 1⟩⟩]

/-- Witness for C3 on a concrete document list with a duplicated key. -/
theorem get_source_citations_spec_witness :
    ((get_source_citations exampleDocs).map fun c => (c.source_file, c.page_number))
        = firstSeenPairs [] (exampleDocs.map keyOfDoc) ∧
      ∀ c ∈ get_source_citations exampleDocs, ∃ d ∈ exampleDocs,
        c.source_file = d.metadata.source_file ∧
        c.page_number = d.metadata.page_number ∧
        (d.page_content.data.length ≤ 200 → c.snippet = d.page_content) ∧
        (200 < d.page_content.data.length →
          c.snippet = (⟨d.page_content.data.take 200⟩ : String) ++ "..." ∧
            c.snippet.data.length = 203 ∧
            ∃ stem, c.snippet = stem ++ "...") :=
  get_source_citations_spec exampleDocs

/-! ## Word-boundary matching (Python `re.search(r'\b...\b', text)`) -/

/-- The regex word-character class `\w` restricted to ASCII:
`[A-Za-z0-9_]`. -/
def isWordChar (c : Char) : Bool :=
  decide (65 ≤ c.toNat ∧ c.toNat ≤ 90) || decide (97 ≤ c.toNat ∧ c.toNat ≤ 122) ||
  decide (48 ≤ c.toNat ∧ c.toNat ≤ 57) || decide (c.toNat = 95)

/-- Whether the character on one side of a position, if any, is a word
character; a missing character counts as non-word. -/
def optWord : Option Char → Bool
  | none => false
  | some c => isWordChar c

/-- Whether the character just before position `i` is a word character. -/
def prevWord (t : List Char) : Nat → Bool
  | 0 => false
  | j + 1 => optWord t[j]?

/-- The regex assertion `\b` at position `i` of `t`: exactly one of the two
neighbouring characters is a word character. -/
def boundaryAt (t : List Char) (i : Nat) : Bool := prevWord t i != optWord t[i]?

/-- Whether the literal `pat` occurs in `t` starting at position `i`. -/
def matchesAt (pat t : List Char) (i : Nat) : Bool := pat.isPrefixOf (t.drop i)

/-- Embedding of `re.search(r'\b' + re.escape(pat) + r'\b', t) is not None`
for a literal pattern `pat` (which is what `re.escape` produces). -/
def wordBoundarySearch (pat t : List Char) : Bool :=
  (List.range (t.length + 1)).any fun i =>
    matchesAt pat t i && boundaryAt t i && boundaryAt t (i + pat.length)

/-- Declarative reading of the same search: `t` splits as
`pre ++ pat ++ suf` with a word/non-word alternation at both junctions. -/
def OccursWholeWord (pat t : List Char) : Prop :=
  ∃ pre suf, t = pre ++ pat ++ suf ∧
    optWord pre.getLast? ≠ optWord (pat ++ suf).head? ∧
    optWord (pre ++ pat).getLast? ≠ optWord suf.head?

theorem prevWord_eq_getLast_take (t : List Char) (i : Nat) (h : i ≤ t.length) :
    prevWord t i = optWord (t.take i).getLast? := by
  cases i with
  | zero => rfl
  | succ j =>
    show optWord t[j]? = optWord (t.take (j + 1)).getLast?
    rw [List.getLast?_eq_getElem?, List.length_take]
    have hmin : min (j + 1) t.length = j + 1 := by omega
    rw [hmin]
    simp only [Nat.add_sub_cancel]
    rw [List.getElem?_take, if_pos (Nat.lt_succ_self j)]

theorem wordBoundarySearch_iff (pat t : List Char) :
    wordBoundarySearch pat t = true ↔ OccursWholeWord pat t := by
  unfold wordBoundarySearch
  rw [List.any_eq_true]
  constructor
  · rintro ⟨i, hi, hcond⟩
    rw [List.mem_range] at hi
    have hile : i ≤ t.length := by omega
    simp only [Bool.and_eq_true] at hcond
    obtain ⟨⟨hmatch, hb1⟩, hb2⟩ := hcond
    rw [matchesAt, List.isPrefixOf_iff_prefix] at hmatch
    obtain ⟨suf, hsuf⟩ := hmatch
    have hlen : i + pat.length ≤ t.length := by
      have := congrArg List.length hsuf
      simp only [List.length_append, List.length_drop] at this
      omega
    refine ⟨t.take i, suf, ?_, ?_, ?_⟩
    · rw [List.append_assoc, hsuf, List.take_append_drop]
    · have e1 : optWord (t.take i).getLast? = prevWord t i :=
        (prevWord_eq_getLast_take t i hile).symm
      have e2 : optWord (pat ++ suf).head? = optWord t[i]? := by
        rw [hsuf, List.head?_drop]
      rw [e1, e2]
      exact bne_iff_ne.mp hb1
    · have hpre : t.take (i + pat.length) = t.take i ++ pat := by
        rw [List.take_add]
        refine congrArg (t.take i ++ ·) ?_
        rw [← hsuf, List.take_left' rfl]
      have e1 : optWord (t.take i ++ pat).getLast? = prevWord t (i + pat.length) := by
        rw [← hpre]
        exact (prevWord_eq_getLast_take t (i + pat.length) hlen).symm
      have e2 : optWord suf.head? = optWord t[i + pat.length]? := by
        have hdrop : t.drop (i + pat.length) = suf := by
          rw [← List.drop_drop, ← hsuf, List.drop_left]
        rw [← hdrop, List.head?_drop]
      rw [e1, e2]
      exact bne_iff_ne.mp hb2
  · rintro ⟨pre, suf, ht, hb1, hb2⟩
    subst ht
    refine ⟨pre.length, ?_, ?_⟩
    · rw [List.mem_range]
      simp only [List.length_append]
      omega
    · simp only [Bool.and_eq_true]
      have hdrop1 : (pre ++ pat ++ suf).drop pre.length = pat ++ suf := by
        rw [List.append_assoc, List.drop_left]
      have htake1 : (pre ++ pat ++ suf).take pre.length = pre := by
        rw [List.append_assoc, List.take_left]
      refine ⟨⟨?_, ?_⟩, ?_⟩
      · rw [matchesAt, List.isPrefixOf_iff_prefix, hdrop1]
        exact ⟨suf, rfl⟩
      · rw [boundaryAt, bne_iff_ne]
        have e1 : prevWord (pre ++ pat ++ suf) pre.length = optWord pre.getLast? := by
          rw [prevWord_eq_getLast_take _ _ (by simp only [List.length_append]; omega), htake1]
        have e2 : optWord (pre ++ pat ++ suf)[pre.length]? = optWord (pat ++ suf).head? := by
          rw [← List.head?_drop, hdrop1]
        rw [e1, e2]
        exact hb1
      · rw [boundaryAt, bne_iff_ne]
        have hplen : pre.length + pat.length = (pre ++ pat).length := by
          rw [List.length_append]
        have e1 : prevWord (pre ++ pat ++ suf) (pre.length + pat.length)
            = optWord (pre ++ pat).getLast? := by
          rw [prevWord_eq_getLast_take _ _ (by simp only [List.length_append]; omega)]
          rw [hplen, List.take_left]
        have e2 : optWord (pre ++ pat ++ suf)[pre.length + pat.length]?
            = optWord suf.head? := by
          rw [← List.head?_drop, hplen, List.drop_left]
        rw [e1, e2]
        exact hb2

/-! ## CourseRetriever.detect_course_from_query and scope resolution -/

/-- The three regex patterns tried for one course in
`detect_course_from_query`: the lowercased ID literally, and with `-`
respectively `_` replaced by spaces (the surrounding `\b` assertions are
part of `wordBoundarySearch`; `re.escape` only literalizes). -/
def course_patterns (course : String) : List (List Char) :=
  [(pyLowerStr course).data,
   (replaceChar '-' ' ' (pyLowerStr course)).data,
   (replaceChar '_' ' ' (pyLowerStr course)).data]

/-- Whether any pattern of `course` word-boundary-matches the lowercased
query. -/
def courseMatches (query_lower : List Char) (course : String) : Bool :=
  (course_patterns course).any fun p => wordBoundarySearch p query_lower

/-- Embedding of `CourseRetriever.detect_course_from_query`: first course
in list order with a matching pattern wins with confidence 0.9; otherwise
no course, confidence 0.0. -/
def detect_course_from_query (query : String) (available_courses : List String) :
    Option String × ℚ :=
  if available_courses = [] then (none, 0)
  else
    match available_courses.find? (courseMatches (pyLowerStr query).data) with
    | some course => (some course, 9/10)
    | none => (none, 0)

/-- The effective course filter computed by the AUTO-mode branch of
`CourseRetriever.retrieve` (and identically by `retrieve_with_scores`):
when the selector is AUTO or absent, use the detected course exactly when
it is truthy and the confidence is at least 0.5, else search everything;
an explicit selector passes through. -/
def resolve_course_scope (query : String) (course_id : Option String)
    (available_courses : List String) : Option String :=
  if course_id = some AUTO_COURSE_ID ∨ course_id = none then
    match detect_course_from_query query available_courses with
    | (some c, conf) => if c ≠ "" ∧ 1/2 ≤ conf then some c else none
    | (none, _) => none
  else course_id

/-- Claim-side reading: the query mentions the course as a case-insensitive
whole word, literally or with `-`/`_` replaced by spaces. -/
def MentionedAsWholeWord (query course : String) : Prop :=
  ∃ p ∈ course_patterns course, OccursWholeWord p (pyLowerStr query).data

theorem find?_first {α : Type} {p : α → Bool} :
    ∀ {l : List α} {a : α}, l.find? p = some a →
      ∃ pre suf, l = pre ++ a :: suf ∧ p a = true ∧ ∀ b ∈ pre, p b = false := by
  intro l
  induction l with
  | nil =>
    intro a h
    simp [List.find?] at h
  | cons x t ih =>
    intro a h
    rw [List.find?_cons] at h
    cases hx : p x with
    | true =>
      rw [hx] at h
      simp only at h
      obtain rfl := Option.some.inj h
      exact ⟨[], t, rfl, hx, by simp⟩
    | false =>
      rw [hx] at h
      simp only at h
      rcases ih h with ⟨pre, suf, hl, hpa, hpre⟩
      refine ⟨x :: pre, suf, by rw [hl]; rfl, hpa, ?_⟩
      intro b hb
      rcases List.mem_cons.mp hb with rfl | hbm
      · exact hx
      · exact hpre b hbm

theorem courseMatches_iff (query course : String) :
    courseMatches (pyLowerStr query).data course = true ↔
      MentionedAsWholeWord query course := by
  unfold courseMatches MentionedAsWholeWord
  rw [List.any_eq_true]
  constructor
  · rintro ⟨p, hp, h⟩
    exact ⟨p, hp, (wordBoundarySearch_iff _ _).mp h⟩
  · rintro ⟨p, hp, h⟩
    exact ⟨p, hp, (wordBoundarySearch_iff _ _).mpr h⟩

/-- C1: with a non-empty list of known (non-empty) course IDs and an AUTO
or absent course selector, detection returns the first course in list
order mentioned in the query as a case-insensitive whole word (literally
or with `-`/`_` replaced by spaces) with confidence 0.9, in which case
retrieval scopes to exactly that course (0.9 ≥ 0.5); otherwise detection
returns no course with confidence 0.0 and retrieval searches all courses
unfiltered. -/
theorem auto_course_scope_spec (query : String) (cs : List String) (sel : Option String)
    (hne : cs ≠ []) (hnz : ∀ c ∈ cs, c ≠ "")
    (hsel : sel = some AUTO_COURSE_ID ∨ sel = none) :
    (∃ pre c suf, cs = pre ++ c :: suf ∧ MentionedAsWholeWord query c ∧
        (∀ c' ∈ pre, ¬ MentionedAsWholeWord query c') ∧
        detect_course_from_query query cs = (some c, 9/10) ∧
        resolve_course_scope query sel cs = some c) ∨
      ((∀ c ∈ cs, ¬ MentionedAsWholeWord query c) ∧
        detect_course_from_query query cs = (none, 0) ∧
        resolve_course_scope query sel cs = none) := by
  have hdet : detect_course_from_query query cs
      = match cs.find? (courseMatches (pyLowerStr query).data) with
        | some course => (some course, 9/10)
        | none => (none, 0) := by
    unfold detect_course_from_query
    rw [if_neg hne]
  cases hfind : cs.find? (courseMatches (pyLowerStr query).data) with
  | some c =>
    left
    rcases find?_first hfind with ⟨pre, suf, hl, hpa, hpre⟩
    have hdet2 : detect_course_from_query query cs = (some c, 9/10) := by
      rw [hdet, hfind]
    refine ⟨pre, c, suf, hl, (courseMatches_iff query c).mp hpa, ?_, hdet2, ?_⟩
    · intro c' hc' hm
      have htrue := (courseMatches_iff query c').mpr hm
      rw [hpre c' hc'] at htrue
      exact Bool.noConfusion htrue
    · unfold resolve_course_scope
      rw [if_pos hsel, hdet2]
      have hcne : c ≠ "" := hnz c (by rw [hl]; simp)
      exact if_pos ⟨hcne, by norm_num⟩
  | none =>
    right
    have hdet2 : detect_course_from_query query cs = (none, 0) := by
      rw [hdet, hfind]
    refine ⟨?_, hdet2, ?_⟩
    · intro c hc hm
      have := List.find?_eq_none.mp hfind c hc
      exact this ((courseMatches_iff query c).mpr hm)
    · unfold resolve_course_scope
      rw [if_pos hsel, hdet2]

/-- Witness for C1: the detection example of the specification, with known
course "CS101" mentioned in the query. -/
theorem auto_course_scope_spec_witness :
    (∃ pre c suf, ["CS101"] = pre ++ c :: suf ∧
        MentionedAsWholeWord "what is the deadline for CS101 hw2" c ∧
        (∀ c' ∈ pre, ¬ MentionedAsWholeWord "what is the deadline for CS101 hw2" c') ∧
        detect_course_from_query "what is the deadline for CS101 hw2" ["CS101"]
          = (some c, 9/10) ∧
        resolve_course_scope "what is the deadline for CS101 hw2"
          (some AUTO_COURSE_ID) ["CS101"] = some c) ∨
      ((∀ c ∈ ["CS101"], ¬ MentionedAsWholeWord "what is the deadline for CS101 hw2" c) ∧
        detect_course_from_query "what is the deadline for CS101 hw2" ["CS101"]
          = (none, 0) ∧
        resolve_course_scope "what is the deadline for CS101 hw2"
          (some AUTO_COURSE_ID) ["CS101"] = none) :=
  auto_course_scope_spec "what is the deadline for CS101 hw2" ["CS101"]
    (some AUTO_COURSE_ID) (by decide) (by decide) (Or.inl rfl)

/-! ## DocumentProcessor.process_txt and process_pdf

The UTF-8 decoding with ignored errors (`decode`), the MD5 hex digest
(`md5hex`), the recursive character splitter (`split`) and the pdfplumber
page-text extraction (`extract_pages`, one entry per page, empty string
when `extract_text()` returns None) are external pure functions of the
file bytes / text and are taken as parameters. -/

/-- The truncated hex digest `hashlib.md5(file_content).hexdigest()[:8]`. -/
def fileHash8 (md5hex : List Nat → String) (file_content : List Nat) : String :=
  ⟨(md5hex file_content).data.take 8⟩

/-- Embedding of `DocumentProcessor.process_txt`. -/
def process_txt (decode : List Nat → String) (md5hex : List Nat → String)
    (split : String → List String) (file_content : List Nat)
    (filename course_id doc_type upload_timestamp : String) : List Document :=
  if pyStrip (decode file_content).data = [] then []
  else
    (split (decode file_content)).enum.map fun ce =>
      ⟨ce.2, ⟨pyUpperStr course_id, doc_type, filename, 1,
              fileHash8 md5hex file_content ++ "_1_" ++ natStr ce.1,
              ce.1, upload_timestamp, "txt", 1⟩⟩

/-- Embedding of `DocumentProcessor.process_pdf` (pages enumerated from 1,
pages whose stripped text is empty are skipped). -/
def process_pdf (extract_pages : List Nat → List String) (md5hex : List Nat → String)
    (split : String → List String) (file_content : List Nat)
    (filename course_id doc_type upload_timestamp : String) : List Document :=
  ((extract_pages file_content).enum.map fun pe =>
    if pyStrip pe.2.data = [] then []
    else
      (split pe.2).enum.map fun ce =>
        (⟨ce.2, ⟨pyUpperStr course_id, doc_type, filename, pe.1 + 1,
                fileHash8 md5hex file_content ++ "_" ++ natStr (pe.1 + 1)
                  ++ "_" ++ natStr ce.1,
                ce.1, upload_timestamp, "pdf",
                (extract_pages file_content).length⟩⟩ : Document)).flatten

theorem process_txt_chunk_ids (decode : List Nat → String) (md5hex : List Nat → String)
    (split : String → List String) (file_content : List Nat)
    (filename course_id doc_type upload_timestamp : String) :
    (process_txt decode md5hex split file_content filename course_id doc_type
        upload_timestamp).map (fun d => d.metadata.chunk_id)
      = if pyStrip (decode file_content).data = [] then []
        else (split (decode file_content)).enum.map fun ce =>
          fileHash8 md5hex file_content ++ "_1_" ++ natStr ce.1 := by
  unfold process_txt
  split
  · rfl
  · rw [List.map_map]
    rfl

theorem process_pdf_chunk_ids (extract_pages : List Nat → List String)
    (md5hex : List Nat → String) (split : String → List String) (file_content : List Nat)
    (filename course_id doc_type upload_timestamp : String) :
    (process_pdf extract_pages md5hex split file_content filename course_id doc_type
        upload_timestamp).map (fun d => d.metadata.chunk_id)
      = ((extract_pages file_content).enum.map fun pe =>
          if pyStrip pe.2.data = [] then []
          else (split pe.2).enum.map fun ce =>
            fileHash8 md5hex file_content ++ "_" ++ natStr (pe.1 + 1)
              ++ "_" ++ natStr ce.1).flatten := by
  unfold process_pdf
  rw [List.map_flatten, List.map_map]
  refine congrArg List.flatten ?_
  refine List.map_congr_left ?_
  intro pe _
  simp only [Function.comp]
  split
  · rfl
  · rw [List.map_map]
    rfl

/-- C5: re-ingesting byte-identical file content with the same course and
doc type produces identical chunk-id sequences regardless of the upload
timestamp (TXT and PDF alike), and each chunk id is exactly the truncated
content hash of the whole file plus page number plus chunk index. -/
theorem chunk_ids_deterministic
    (decode md5hex : List Nat → String) (extract_pages : List Nat → List String)
    (split : String → List String) (file_content : List Nat)
    (filename course_id doc_type t1 t2 : String) :
    ((process_txt decode md5hex split file_content filename course_id doc_type t1).map
        (fun d => d.metadata.chunk_id)
      = (process_txt decode md5hex split file_content filename course_id doc_type t2).map
          (fun d => d.metadata.chunk_id)) ∧
    ((process_pdf extract_pages md5hex split file_content filename course_id doc_type t1).map
        (fun d => d.metadata.chunk_id)
      = (process_pdf extract_pages md5hex split file_content filename course_id doc_type
          t2).map (fun d => d.metadata.chunk_id)) ∧
    (∀ d ∈ process_txt decode md5hex split file_content filename course_id doc_type t1,
      d.metadata.chunk_id
          = fileHash8 md5hex file_content ++ "_1_" ++ natStr d.metadata.chunk_index ∧
        d.metadata.page_number = 1) ∧
    (∀ d ∈ process_pdf extract_pages md5hex split file_content filename course_id doc_type t1,
      d.metadata.chunk_id
        = fileHash8 md5hex file_content ++ "_" ++ natStr d.metadata.page_number
            ++ "_" ++ natStr d.metadata.chunk_index) := by
  refine ⟨?_, ?_, ?_, ?_⟩
  · rw [process_txt_chunk_ids, process_txt_chunk_ids]
  · rw [process_pdf_chunk_ids, process_pdf_chunk_ids]
  · intro d hd
    unfold process_txt at hd
    split at hd
    · simp at hd
    · rcases List.mem_map.mp hd with ⟨ce, _, rfl⟩
      exact ⟨rfl, rfl⟩
  · intro d hd
    unfold process_pdf at hd
    rcases List.mem_flatten.mp hd with ⟨pagedocs, hpl, hdp⟩
    rcases List.mem_map.mp hpl with ⟨pe, _, rfl⟩
    split at hdp
    · simp at hdp
    · rcases List.mem_map.mp hdp with ⟨ce, _, rfl⟩
      rfl

/-- Witness for C5 at concrete external functions, file bytes and two
distinct upload timestamps. -/
theorem chunk_ids_deterministic_witness :
    ((process_txt (fun _ => "hello world") (fun _ => "0123456789abcdef")
        (fun s => [s, s]) [104, 105] "a.txt" "CS101" "lecture" "2024-01-01").map
        (fun d => d.metadata.chunk_id)
      = (process_txt (fun _ => "hello world") (fun _ => "0123456789abcdef")
          (fun s => [s, s]) [104, 105] "a.txt" "CS101" "lecture" "2025-06-30").map
          (fun d => d.metadata.chunk_id)) ∧
    ((process_pdf (fun _ => ["page one", "", "page three"]) (fun _ => "0123456789abcdef")
        (fun s => [s, s]) [104, 105] "a.txt" "CS101" "lecture" "2024-01-01").map
        (fun d => d.metadata.chunk_id)
      = (process_pdf (fun _ => ["page one", "", "page three"]) (fun _ => "0123456789abcdef")
          (fun s => [s, s]) [104, 105] "a.txt" "CS101" "lecture" "2025-06-30").map
          (fun d => d.metadata.chunk_id)) ∧
    (∀ d ∈ process_txt (fun _ => "hello world") (fun _ => "0123456789abcdef")
        (fun s => [s, s]) [104, 105] "a.txt" "CS101" "lecture" "2024-01-01",
      d.metadata.chunk_id
          = fileHash8 (fun _ => "0123456789abcdef") [104, 105] ++ "_1_"
              ++ natStr d.metadata.chunk_index ∧
        d.metadata.page_number = 1) ∧
    (∀ d ∈ process_pdf (fun _ => ["page one", "", "page three"])
        (fun _ => "0123456789abcdef") (fun s => [s, s]) [104, 105] "a.txt" "CS101"
        "lecture" "2024-01-01",
      d.metadata.chunk_id
        = fileHash8 (fun _ => "0123456789abcdef") [104, 105] ++ "_"
            ++ natStr d.metadata.page_number ++ "_" ++ natStr d.metadata.chunk_index) :=
  chunk_ids_deterministic (fun _ => "hello world") (fun _ => "0123456789abcdef")
    (fun _ => ["page one", "", "page three"]) (fun s => [s, s]) [104, 105]
    "a.txt" "CS101" "lecture" "2024-01-01" "2025-06-30"

theorem pyUpperStr_of_norm {s : String} (h : ∀ c ∈ s.data, normChar c = true) :
    pyUpperStr s = s :=
  string_eq_of_data_eq (map_eq_self_of fun c hc => pyUpperChar_of_norm (h c hc))

/-- C4: every chunk produced by the upload pipeline (which, as
`app.process_uploads` does, sanitizes the raw course id before handing it
to the processor, whose only further transformation is `.upper()`) carries
`course_id` equal to the sanitized raw input: a non-empty word over
`[A-Z0-9_-]` (hence uppercase), of length 2–50 whenever the upload
validation accepted the raw input, and equal to the MISC sentinel when
nothing of the raw input survives normalization. -/
theorem course_id_always_normalized
    (decode md5hex : List Nat → String) (extract_pages : List Nat → List String)
    (split : String → List String) (file_content : List Nat)
    (filename doc_type ts raw : String) :
    (∀ d ∈ process_txt decode md5hex split file_content filename
        (sanitize_course_id raw) doc_type ts,
        d.metadata.course_id = sanitize_course_id raw) ∧
    (∀ d ∈ process_pdf extract_pages md5hex split file_content filename
        (sanitize_course_id raw) doc_type ts,
        d.metadata.course_id = sanitize_course_id raw) ∧
    (∀ c ∈ (sanitize_course_id raw).data, normChar c = true) ∧
    (sanitize_course_id raw).data ≠ [] ∧
    ((validate_course_id raw).1 = true →
      2 ≤ (sanitize_course_id raw).data.length ∧
        (sanitize_course_id raw).data.length ≤ 50) ∧
    (sanitizeCore raw = [] → sanitize_course_id raw = MISC_COURSE_ID) := by
  obtain ⟨hnorm, hnonempty⟩ := sanitize_chars raw
  have hupper : pyUpperStr (sanitize_course_id raw) = sanitize_course_id raw :=
    pyUpperStr_of_norm hnorm
  refine ⟨?_, ?_, hnorm, hnonempty, ?_, ?_⟩
  · intro d hd
    unfold process_txt at hd
    split at hd
    · simp at hd
    · rcases List.mem_map.mp hd with ⟨ce, _, rfl⟩
      exact hupper
  · intro d hd
    unfold process_pdf at hd
    rcases List.mem_flatten.mp hd with ⟨pagedocs, hpl, hdp⟩
    rcases List.mem_map.mp hpl with ⟨pe, _, rfl⟩
    split at hdp
    · simp at hdp
    · rcases List.mem_map.mp hdp with ⟨ce, _, rfl⟩
      exact hupper
  · intro hv
    unfold validate_course_id at hv
    split at hv
    · simp at hv
    · split at hv
      · simp at hv
      · split at hv
        · simp at hv
        · next h2 h3 => omega
  · intro hcore
    unfold sanitize_course_id
    rw [if_pos hcore]

/-- Witness for C4 at the concrete raw course id "cs 101" (which validates
and sanitizes to "CS_101") and concrete external functions. -/
theorem course_id_always_normalized_witness :
    (∀ d ∈ process_txt (fun _ => "hello") (fun _ => "0123456789abcdef")
        (fun s => [s]) [104] "a.txt" (sanitize_course_id "cs 101") "lecture" "2024-01-01",
        d.metadata.course_id = sanitize_course_id "cs 101") ∧
    (∀ d ∈ process_pdf (fun _ => ["hello"]) (fun _ => "0123456789abcdef")
        (fun s => [s]) [104] "a.txt" (sanitize_course_id "cs 101") "lecture" "2024-01-01",
        d.metadata.course_id = sanitize_course_id "cs 101") ∧
    (∀ c ∈ (sanitize_course_id "cs 101").data, normChar c = true) ∧
    (sanitize_course_id "cs 101").data ≠ [] ∧
    ((validate_course_id "cs 101").1 = true →
      2 ≤ (sanitize_course_id "cs 101").data.length ∧
        (sanitize_course_id "cs 101").data.length ≤ 50) ∧
    (sanitizeCore "cs 101" = [] → sanitize_course_id "cs 101" = MISC_COURSE_ID) :=
  course_id_always_normalized (fun _ => "hello") (fun _ => "0123456789abcdef")
    (fun _ => ["hello"]) (fun s => [s]) [104] "a.txt" "lecture" "2024-01-01" "cs 101"

/-! ## RAGChain.generate_response_stream (streaming protocol) -/

/-- One event yielded by `generate_response_stream`; `none` in `sources`,
`evidence` or `num_sources` models the Python value `None` (respectively a
key never set). Evidence entries are content plus metadata, i.e. exactly
the retrieved documents. -/
structure StreamEvent where
  chunk : String
  sources : Option (List Citation)
  evidence : Option (List Document)
  num_sources : Option Nat
  done : Bool
deriving DecidableEq

/-- Embedding of `RAGChain.generate_response_stream` given the retrieved
documents and the behaviour of the model stream: `llm_chunks` are the text
deltas the provider delivered, and `llm_error = some e` means the provider
raised `e` after those deltas (caught by the `except` branch); `none`
means the stream completed. -/
def generate_response_stream (documents : List Document)
    (llm_chunks : List String) (llm_error : Option String) : List StreamEvent :=
  ⟨"", some (get_source_citations documents), some documents, some documents.length,
    false⟩ ::
  (llm_chunks.map fun c => (⟨c, none, none, none, false⟩ : StreamEvent)) ++
  [match llm_error with
   | none => ⟨"", some (get_source_citations documents), some documents, none, true⟩
   | some e => ⟨"\n\n⚠️ Error generating response: " ++ e,
                some (get_source_citations documents), some documents, none, true⟩]

/-- The answer text assembled by the consumer (`app.py` accumulates
`full_response += chunk_data["chunk"]` over every event). -/
def assembled_answer (events : List StreamEvent) : String :=
  events.foldl (fun acc ev => acc ++ ev.chunk) ""

theorem foldl_append_concat (events : List StreamEvent) (fin : StreamEvent) (a : String) :
    (events ++ [fin]).foldl (fun acc ev => acc ++ ev.chunk) a
      = events.foldl (fun acc ev => acc ++ ev.chunk) a ++ fin.chunk := by
  rw [List.foldl_append]
  rfl

/-- C2: every event sequence of the streaming generator contains exactly
one `done = true` event and it is the last one; on mid-stream failure that
terminal event carries the visible error marker with sources and evidence
populated; without an error, the concatenation in order of the `chunk`
fields of the non-final events equals the assembled answer text. -/
theorem generate_response_stream_protocol (documents : List Document)
    (llm_chunks : List String) (llm_error : Option String) :
    (generate_response_stream documents llm_chunks llm_error).countP (fun ev => ev.done)
        = 1 ∧
      (∃ last, (generate_response_stream documents llm_chunks llm_error).getLast?
          = some last ∧ last.done = true ∧
          last.sources = some (get_source_citations documents) ∧
          last.evidence = some documents ∧
          ∀ e, llm_error = some e →
            last.chunk = "\n\n⚠️ Error generating response: " ++ e) ∧
      (llm_error = none →
        ((generate_response_stream documents llm_chunks llm_error).dropLast.foldl
            (fun acc ev => acc ++ ev.chunk) "")
          = assembled_answer (generate_response_stream documents llm_chunks llm_error)) := by
  unfold generate_response_stream
  refine ⟨?_, ?_, ?_⟩
  · rw [List.countP_append, List.countP_cons, List.countP_map]
    have hmid : llm_chunks.countP
        ((fun ev => ev.done) ∘ fun c => (⟨c, none, none, none, false⟩ : StreamEvent)) = 0 := by
      rw [List.countP_eq_zero]
      intro c _
      simp [Function.comp]
    rw [hmid]
    cases llm_error <;> simp [List.countP_cons]
  · cases llm_error with
    | none =>
      refine ⟨⟨"", some (get_source_citations documents), some documents, none, true⟩,
        ?_, rfl, rfl, rfl, ?_⟩
      · exact List.getLast?_concat _
      · intro e he
        exact Option.noConfusion he
    | some e =>
      refine ⟨⟨"\n\n⚠️ Error generating response: " ++ e,
          some (get_source_citations documents), some documents, none, true⟩,
        ?_, rfl, rfl, rfl, ?_⟩
      · exact List.getLast?_concat _
      · intro e2 he
        obtain rfl := Option.some.inj he
        rfl
  · intro he
    subst he
    unfold assembled_answer
    rw [List.dropLast_concat, foldl_append_concat]
    show _ = _ ++ ""
    rw [String.append_empty]

/-- Witness for C2 on concrete inputs, both for a completed stream and for
a mid-stream provider failure. -/
theorem generate_response_stream_protocol_witness :
    ((generate_response_stream [] ["Hello ", "world"] none).countP (fun ev => ev.done)
          = 1 ∧
        (∃ last, (generate_response_stream [] ["Hello ", "world"] none).getLast?
            = some last ∧ last.done = true ∧
            last.sources = some (get_source_citations []) ∧
            last.evidence = some ([] : List Document) ∧
            ∀ e, (none : Option String) = some e →
              last.chunk = "\n\n⚠️ Error generating response: " ++ e) ∧
        ((none : Option String) = none →
          ((generate_response_stream [] ["Hello ", "world"] none).dropLast.foldl
              (fun acc ev => acc ++ ev.chunk) "")
            = assembled_answer (generate_response_stream [] ["Hello ", "world"] none))) ∧
      ((generate_response_stream [] ["partial"] (some "boom")).countP (fun ev => ev.done)
          = 1 ∧
        (∃ last, (generate_response_stream [] ["partial"] (some "boom")).getLast?
            = some last ∧ last.done = true ∧
            last.sources = some (get_source_citations []) ∧
            last.evidence = some ([] : List Document) ∧
            ∀ e, (some "boom" : Option String) = some e →
              last.chunk = "\n\n⚠️ Error generating response: " ++ e) ∧
        ((some "boom" : Option String) = none →
          ((generate_response_stream [] ["partial"] (some "boom")).dropLast.foldl
              (fun acc ev => acc ++ ev.chunk) "")
            = assembled_answer (generate_response_stream [] ["partial"] (some "boom")))) :=
  ⟨generate_response_stream_protocol [] ["Hello ", "world"] none,
   generate_response_stream_protocol [] ["partial"] (some "boom")⟩

/-! ## VectorStoreManager: similarity search (soft-fail) and deletion -/

/-- The metadata `where` filter built by `similarity_search` /
`similarity_search_with_scores`: a course entry when the course id is
truthy and not the AUTO sentinel, plus any extra filter entries. -/
def build_where_filter (course_id : Option String)
    (filter_dict : Option (List (String × String))) : List (String × String) :=
  (match course_id with
   | some c => if c ≠ "" ∧ c ≠ AUTO_COURSE_ID then [("course_id", pyUpperStr c)] else []
   | none => []) ++
  (match filter_dict with
   | some fd => fd
   | none => [])

/-- Embedding of `VectorStoreManager.similarity_search`.  The underlying
Chroma call is `raw_search query k filter?`; `Except.error` models a
raised exception, which the `except` branch turns into `[]`. -/
def similarity_search
    (raw_search : String → Nat → Option (List (String × String)) →
      Except String (List Document))
    (query : String) (course_id : Option String) (k : Nat)
    (filter_dict : Option (List (String × String))) : List Document :=
  match (if build_where_filter course_id filter_dict ≠ [] then
          raw_search query k (some (build_where_filter course_id filter_dict))
        else raw_search query k none) with
  | Except.ok docs => docs
  | Except.error _ => []

/-- Embedding of `VectorStoreManager.similarity_search_with_scores`
(identical structure, scored results). -/
def similarity_search_with_scores
    (raw_search : String → Nat → Option (List (String × String)) →
      Except String (List (Document × ℚ)))
    (query : String) (course_id : Option String) (k : Nat)
    (filter_dict : Option (List (String × String))) : List (Document × ℚ) :=
  match (if build_where_filter course_id filter_dict ≠ [] then
          raw_search query k (some (build_where_filter course_id filter_dict))
        else raw_search query k none) with
  | Except.ok results => results
  | Except.error _ => []

/-- C7: when the underlying index raises during similarity search (with or
without scores), the search operations return the empty list; being total
Lean functions, they cannot propagate the exception. -/
theorem similarity_search_soft_fail
    (raw_search : String → Nat → Option (List (String × String)) →
      Except String (List Document))
    (raw_search_scored : String → Nat → Option (List (String × String)) →
      Except String (List (Document × ℚ)))
    (query : String) (course_id : Option String) (k : Nat)
    (filter_dict : Option (List (String × String))) (msg msg2 : String)
    (herr : ∀ f, raw_search query k f = Except.error msg)
    (herr2 : ∀ f, raw_search_scored query k f = Except.error msg2) :
    similarity_search raw_search query course_id k filter_dict = [] ∧
      similarity_search_with_scores raw_search_scored query course_id k filter_dict
        = [] := by
  constructor
  · unfold similarity_search
    by_cases hf : build_where_filter course_id filter_dict ≠ []
    · rw [if_pos hf, herr]
    · rw [if_neg hf, herr]
  · unfold similarity_search_with_scores
    by_cases hf : build_where_filter course_id filter_dict ≠ []
    · rw [if_pos hf, herr2]
    · rw [if_neg hf, herr2]

/-- Witness for C7 with a concretely failing index. -/
theorem similarity_search_soft_fail_witness :
    similarity_search (fun _ _ _ => Except.error "connection refused")
        "when is the exam" (some "CS101") 5 none = [] ∧
      similarity_search_with_scores (fun _ _ _ => Except.error "connection refused")
        "when is the exam" (some "CS101") 5 none = [] :=
  similarity_search_soft_fail (fun _ _ _ => Except.error "connection refused")
    (fun _ _ _ => Except.error "connection refused") "when is the exam" (some "CS101")
    5 none "connection refused" "connection refused" (fun _ => rfl) (fun _ => rfl)

/-! ## VectorStoreManager.delete_document -/

/-- One stored chunk as seen by the raw Chroma collection: its id and the
metadata fields `delete_document` filters on. -/
structure StoredChunk where
  id : String
  course_id : String
  source_file : String
deriving DecidableEq

/-- The `$and` filter of `delete_document`: both course (uppercased) and
source file must match. -/
def chunk_matches (course_upper source_file : String) (c : StoredChunk) : Bool :=
  decide (c.course_id = course_upper) && decide (c.source_file = source_file)

/-- Embedding of `VectorStoreManager.delete_document`: get the ids of all
chunks matching course and file, delete by those ids when any exist and
report `true`, otherwise leave the collection unchanged and report
`false`. -/
def delete_document (collection : List StoredChunk) (course_id source_file : String) :
    List StoredChunk × Bool :=
  if ((collection.filter (chunk_matches (pyUpperStr course_id) source_file)).map
        (fun c => c.id)) = [] then
    (collection, false)
  else
    (collection.filter fun c =>
      !(((collection.filter (chunk_matches (pyUpperStr course_id) source_file)).map
          (fun c => c.id)).contains c.id), true)

/-- C8: with distinct chunk ids (an invariant the Chroma collection
enforces), `delete_document` removes exactly the chunks whose metadata
matches both the uppercased course and the source file, returns `true`
exactly when at least one matching chunk existed, and leaves the
collection untouched returning `false` (no exception) when none does. -/
theorem delete_document_spec (collection : List StoredChunk)
    (course_id source_file : String)
    (hnodup : (collection.map (fun c => c.id)).Nodup) :
    (delete_document collection course_id source_file).1
        = collection.filter
            (fun c => !(chunk_matches (pyUpperStr course_id) source_file c)) ∧
      ((delete_document collection course_id source_file).2 = true ↔
        ∃ c ∈ collection, chunk_matches (pyUpperStr course_id) source_file c = true) ∧
      ((∀ c ∈ collection, chunk_matches (pyUpperStr course_id) source_file c = false) →
        delete_document collection course_id source_file = (collection, false)) := by
  by_cases hids : ((collection.filter
      (chunk_matches (pyUpperStr course_id) source_file)).map (fun c => c.id)) = []
  · have hmatched : collection.filter (chunk_matches (pyUpperStr course_id) source_file)
        = [] := List.map_eq_nil_iff.mp hids
    have hnone : ∀ c ∈ collection,
        chunk_matches (pyUpperStr course_id) source_file c = false := by
      intro c hc
      by_contra hne
      have : c ∈ collection.filter (chunk_matches (pyUpperStr course_id) source_file) :=
        List.mem_filter.mpr ⟨hc, by revert hne; cases chunk_matches (pyUpperStr course_id) source_file c <;> simp⟩
      rw [hmatched] at this
      simp at this
    have hdel : delete_document collection course_id source_file = (collection, false) := by
      unfold delete_document
      rw [if_pos hids]
    refine ⟨?_, ?_, fun _ => hdel⟩
    · rw [hdel]
      symm
      exact List.filter_eq_self.mpr fun c hc => by rw [hnone c hc]; rfl
    · rw [hdel]
      simp only [Prod.snd]
      constructor
      · intro h
        exact absurd h (by simp)
      · rintro ⟨c, hc, hm⟩
        rw [hnone c hc] at hm
        exact Bool.noConfusion hm
  · have hdel : delete_document collection course_id source_file
        = (collection.filter fun c =>
            !(((collection.filter
                (chunk_matches (pyUpperStr course_id) source_file)).map
                  (fun c => c.id)).contains c.id), true) := by
      unfold delete_document
      rw [if_neg hids]
    refine ⟨?_, ?_, ?_⟩
    · rw [hdel]
      refine List.filter_congr ?_
      intro c hc
      have hiff : (((collection.filter
          (chunk_matches (pyUpperStr course_id) source_file)).map
            (fun c => c.id)).contains c.id) = true ↔
          chunk_matches (pyUpperStr course_id) source_file c = true := by
        constructor
        · intro hcont
          have hmem : c.id ∈ (collection.filter
              (chunk_matches (pyUpperStr course_id) source_file)).map (fun c => c.id) := by
            simpa using hcont
          rcases List.mem_map.mp hmem with ⟨c', hc', hid⟩
          rcases List.mem_filter.mp hc' with ⟨hc'mem, hc'match⟩
          have : c' = c := List.inj_on_of_nodup_map hnodup hc'mem hc hid
          rw [← this]
          exact hc'match
        · intro hm
          have : c ∈ collection.filter (chunk_matches (pyUpperStr course_id) source_file) :=
            List.mem_filter.mpr ⟨hc, hm⟩
          simp only [List.contains_eq_any_beq, List.any_eq_true]
          exact ⟨c.id, List.mem_map.mpr ⟨c, this, rfl⟩, by simp⟩
      cases hcm : chunk_matches (pyUpperStr course_id) source_file c with
      | true =>
        rw [hiff.mpr hcm]
      | false =>
        have : (((collection.filter
            (chunk_matches (pyUpperStr course_id) source_file)).map
              (fun c => c.id)).contains c.id) = false := by
          cases h : (((collection.filter
              (chunk_matches (pyUpperStr course_id) source_file)).map
                (fun c => c.id)).contains c.id) with
          | false => rfl
          | true =>
            rw [hiff.mp h] at hcm
            exact Bool.noConfusion hcm
        rw [this]
    · rw [hdel]
      simp only [Prod.snd]
      constructor
      · intro _
        have hmatched : collection.filter
            (chunk_matches (pyUpperStr course_id) source_file) ≠ [] := by
          intro hcontra
          rw [hcontra] at hids
          exact hids rfl
        rcases List.exists_mem_of_ne_nil _ hmatched with ⟨c, hc⟩
        rcases List.mem_filter.mp hc with ⟨hcmem, hcmatch⟩
        exact ⟨c, hcmem, hcmatch⟩
      · intro _
        trivial
    · intro hnone
      exfalso
      apply hids
      rw [List.map_eq_nil_iff]
      rw [List.filter_eq_nil_iff]
      intro c hc
      rw [hnone c hc]
      simp

/-- Witness for C8 on a concrete collection containing two matching chunks
and one non-matching chunk. -/
theorem delete_document_spec_witness :
    (delete_document [⟨"i1", "CS101", "notes.pdf"⟩, ⟨"i2", "CS101", "notes.pdf"⟩,
        ⟨"i3", "CS101", "other.pdf"⟩] "cs101" "notes.pdf").1
        = ([⟨"i1", "CS101", "notes.pdf"⟩, ⟨"i2", "CS101", "notes.pdf"⟩,
            ⟨"i3", "CS101", "other.pdf"⟩] : List StoredChunk).filter
            (fun c => !(chunk_matches (pyUpperStr "cs101") "notes.pdf" c)) ∧
      ((delete_document [⟨"i1", "CS101", "notes.pdf"⟩, ⟨"i2", "CS101", "notes.pdf"⟩,
          ⟨"i3", "CS101", "other.pdf"⟩] "cs101" "notes.pdf").2 = true ↔
        ∃ c ∈ ([⟨"i1", "CS101", "notes.pdf"⟩, ⟨"i2", "CS101", "notes.pdf"⟩,
            ⟨"i3", "CS101", "other.pdf"⟩] : List StoredChunk),
          chunk_matches (pyUpperStr "cs101") "notes.pdf" c = true) ∧
      ((∀ c ∈ ([⟨"i1", "CS101", "notes.pdf"⟩, ⟨"i2", "CS101", "notes.pdf"⟩,
          ⟨"i3", "CS101", "other.pdf"⟩] : List StoredChunk),
          chunk_matches (pyUpperStr "cs101") "notes.pdf" c = false) →
        delete_document [⟨"i1", "CS101", "notes.pdf"⟩, ⟨"i2", "CS101", "notes.pdf"⟩,
            ⟨"i3", "CS101", "other.pdf"⟩] "cs101" "notes.pdf"
          = ([⟨"i1", "CS101", "notes.pdf"⟩, ⟨"i2", "CS101", "notes.pdf"⟩,
              ⟨"i3", "CS101", "other.pdf"⟩], false)) :=
  delete_document_spec
    [⟨"i1", "CS101", "notes.pdf"⟩, ⟨"i2", "CS101", "notes.pdf"⟩,
     ⟨"i3", "CS101", "other.pdf"⟩] "cs101" "notes.pdf" (by decide)

/-! ## CourseRetriever.retrieve_with_scores and RAGChain.check_relevance -/

/-- Embedding of `CourseRetriever.retrieve_with_scores`: resolve the
course scope exactly as `retrieve` does, query the store with scores, then
keep only pairs whose score is at least the threshold. -/
def retrieve_with_scores
    (raw_search : String → Nat → Option (List (String × String)) →
      Except String (List (Document × ℚ)))
    (available_courses : List String) (query : String) (course_id : Option String)
    (k : Nat) (score_threshold : ℚ) : List (Document × ℚ) :=
  (similarity_search_with_scores raw_search query
      (resolve_course_scope query course_id available_courses) k none).filter
    fun p => decide (score_threshold ≤ p.2)

/-- The dict returned by `RAGChain.check_relevance`; `num_relevant = none`
models the key being absent from the returned dict, `message = none`
models the key being present with value `None`. -/
structure RelevanceResult where
  has_relevant_docs : Bool
  num_relevant : Option Nat
  top_score : ℚ
  message : Option String
deriving DecidableEq

/-- Embedding of `RAGChain.check_relevance`: score-filtered retrieval with
the default result count and similarity threshold, then the two-branch
summary dict.  Note the empty branch sets no `num_relevant` key. -/
def check_relevance
    (raw_search : String → Nat → Option (List (String × String)) →
      Except String (List (Document × ℚ)))
    (available_courses : List String) (question : String)
    (course_id : Option String) : RelevanceResult :=
  match retrieve_with_scores raw_search available_courses question course_id
      TOP_K_RESULTS SIMILARITY_THRESHOLD with
  | [] => ⟨false, none, 0, some "No documents found matching your query."⟩
  | (d, s) :: rest => ⟨decide (0 < ((d, s) :: rest).length), some ((d, s) :: rest).length,
      s, none⟩

/-- C9 counterexample: with an index that (successfully) returns no
results, `check_relevance` returns a record with no `numRelevant` field at
all, refuting the claim that the returned record always contains all four
fields. -/
theorem check_relevance_missing_num_relevant :
    (check_relevance (fun _ _ _ => Except.ok []) [] "anything" none).num_relevant
      = none := rfl

/-- C9 (amended): `check_relevance` always returns `hasRelevantDocs`,
`topScore` and `message`; when the score-filtered retrieval returns
nothing it reports `hasRelevantDocs = false`, `topScore = 0` and an
explanatory message, omitting `numRelevant`; otherwise it reports
`hasRelevantDocs = true`, `numRelevant` equal to the number of qualifying
results, `topScore` equal to the first result's score and no message.
Every qualifying result scored at least the similarity threshold. -/
theorem check_relevance_spec
    (raw_search : String → Nat → Option (List (String × String)) →
      Except String (List (Document × ℚ)))
    (available_courses : List String) (question : String) (course_id : Option String) :
    (retrieve_with_scores raw_search available_courses question course_id
        TOP_K_RESULTS SIMILARITY_THRESHOLD = [] →
      check_relevance raw_search available_courses question course_id
        = ⟨false, none, 0, some "No documents found matching your query."⟩) ∧
      (∀ d s rest,
        retrieve_with_scores raw_search available_courses question course_id
            TOP_K_RESULTS SIMILARITY_THRESHOLD = (d, s) :: rest →
        check_relevance raw_search available_courses question course_id
          = ⟨true, some ((d, s) :: rest).length, s, none⟩) ∧
      (∀ p ∈ retrieve_with_scores raw_search available_courses question course_id
          TOP_K_RESULTS SIMILARITY_THRESHOLD, SIMILARITY_THRESHOLD ≤ p.2) := by
  refine ⟨?_, ?_, ?_⟩
  · intro h
    unfold check_relevance
    rw [h]
  · intro d s rest h
    unfold check_relevance
    rw [h]
    simp
  · intro p hp
    unfold retrieve_with_scores at hp
    rcases List.mem_filter.mp hp with ⟨_, hs⟩
    exact of_decide_eq_true hs

/-- One concrete retrieved (document, score) pair used by the C9 witness. -/
def exampleScored : Document × ℚ :=
  (⟨"alpha", ⟨"CS101", "lecture", "notes.pdf", 2, "h_2_0", 0, "t0", "pdf", 3⟩⟩, 1/2)

/-- Witness for C9 (amended), applying the nonempty branch at a concrete
index returning one result that passes the 0.3 threshold. -/
theorem check_relevance_spec_witness :
    check_relevance (fun _ _ _ => Except.ok [exampleScored]) [] "any question" none
      = ⟨true, some 1, 1/2, none⟩ :=
  (check_relevance_spec (fun _ _ _ => Except.ok [exampleScored]) [] "any question"
      none).2.1 exampleScored.1 (1/2) []
    (by
      unfold retrieve_with_scores similarity_search_with_scores resolve_course_scope
        detect_course_from_query build_where_filter
      norm_num [List.filter_cons, exampleScored, SIMILARITY_THRESHOLD])

/-! ## RAGChain._format_chat_history -/

/-- A prompt message: langchain `HumanMessage` or `AIMessage`. -/
inductive PromptMessage
  | human (content : String)
  | ai (content : String)
deriving DecidableEq

/-- One entry of the chat history passed by the app: a role and a
content string. -/
structure ChatMessage where
  role : String
  content : String
deriving DecidableEq

/-- Embedding of `RAGChain._format_chat_history`: keep the slice
`history[-max_turns * 2:]`, then append a `HumanMessage` for each 'user'
entry and an `AIMessage` for each 'assistant' entry, dropping everything
else. -/
def format_chat_history (history : List ChatMessage) (max_turns : Nat) :
    List PromptMessage :=
  (if max_turns * 2 < history.length then
      history.drop (history.length - max_turns * 2)
    else history).foldl
    (fun msgs msg =>
      if msg.role = "user" then msgs ++ [PromptMessage.human msg.content]
      else if msg.role = "assistant" then msgs ++ [PromptMessage.ai msg.content]
      else msgs) []

/-- The per-message conversion implicit in the loop body of
`_format_chat_history`. -/
def convert_message (msg : ChatMessage) : Option PromptMessage :=
  if msg.role = "user" then some (PromptMessage.human msg.content)
  else if msg.role = "assistant" then some (PromptMessage.ai msg.content)
  else none

theorem format_foldl_eq_filterMap (history : List ChatMessage) :
    ∀ acc : List PromptMessage,
      history.foldl
          (fun msgs msg =>
            if msg.role = "user" then msgs ++ [PromptMessage.human msg.content]
            else if msg.role = "assistant" then msgs ++ [PromptMessage.ai msg.content]
            else msgs) acc
        = acc ++ history.filterMap convert_message := by
  induction history with
  | nil =>
    intro acc
    simp
  | cons msg rest ih =>
    intro acc
    rw [List.foldl_cons, List.filterMap_cons]
    unfold convert_message
    by_cases h1 : msg.role = "user"
    · rw [if_pos h1, if_pos h1, ih, List.append_assoc]
      rfl
    · rw [if_neg h1, if_neg h1]
      by_cases h2 : msg.role = "assistant"
      · rw [if_pos h2, if_pos h2, ih, List.append_assoc]
        rfl
      · rw [if_neg h2, if_neg h2, ih]
        rfl

/-- C10: with the configured window of 10 turns, the history included in
the prompt is exactly the user/assistant entries of the 20 most recent
messages, converted in their original relative order; entries with any
other role are silently dropped. -/
theorem format_chat_history_spec (history : List ChatMessage) :
    format_chat_history history MAX_CHAT_HISTORY
      = (history.drop (history.length - 20)).filterMap convert_message := by
  unfold format_chat_history MAX_CHAT_HISTORY
  by_cases h : 10 * 2 < history.length
  · rw [if_pos h, format_foldl_eq_filterMap]
    rfl
  · rw [if_neg h, format_foldl_eq_filterMap]
    have hdrop : history.length - 20 = 0 := by omega
    rw [hdrop, List.drop_zero]
    rfl
